import Mathlib

/-!
Verification of the building-energy cache-and-reconciliation layer
(`BuildingEnergyDisplay_v2.cpp` / `BuildingEnergyDisplay_v4.h`).

The development shallowly embeds the cache data model and the operations the
specification talks about:

* the four building-keyed maps (`BuildingDataCache`, `BuildingColorCache`,
  `GmlIdCache`, `BuildingCoordinatesCache`) as association lists over exact
  (case-sensitive) string keys, in insertion order — mirroring the source's
  documented "CASE-SENSITIVE, no normalization" policy for `TMap` usage;
* the identifier conversions `ConvertGmlIdToBuildingKey` / `ConvertActualGmlIdToModified`;
* the bulk loader `ParseAndCacheAllBuildings` (JSON decoding itself is an
  external primitive, so each building object is represented by the values
  that the source's field probing extracts from it);
* the poll cycle `OnRealTimeDataResponse` / `DetectAndApplyChanges` and the
  adaptive interval logic `UpdatePollingStrategy`;
* `ClearCache`;
* the spatial functions `CreateBuildingBoundingBox`, `IsPointInBoundingBox`,
  `IsPointInPolygon`, `ValidateBuildingPosition` (float coordinates are
  modelled by rationals);
* the resolve ladder of `OnBuildingClicked` and the single-display policy of
  `ShowBuildingInfoWidget` / `HideBuildingInfoWidget`.
-/

namespace BuildingEnergy

/-! ### Strings: character substitution and containment

`FString::Replace` with a single-character pattern replaces every occurrence
of that character; `FString::Contains` with a single-character pattern tests
membership.  Identifier handling in the source is documented as
case-sensitive throughout ("'G' != 'g'"), and no case folding is applied to
any id, so string comparison is exact. -/

/-- Replace every occurrence of character `a` by `b` (models
`FString::Replace(TEXT("a"), TEXT("b"))` for one-character patterns). -/
def replaceChar (a b : Char) (s : String) : String :=
  ⟨s.data.map fun c => if c = a then b else c⟩

/-- Does `s` contain the character `c` (models `FString::Contains` for a
one-character pattern)? -/
def containsChar (c : Char) (s : String) : Bool :=
  s.data.contains c

/-! ### Identifier conversion (`IdentifierResolver`) -/

/-- Model of `ConvertGmlIdToBuildingKey` (BuildingEnergyDisplay_v2.cpp:4787-4807):
convert a `modified_gml_id` (underscore format) to the actual `gml_id`
(`L` format) by replacing `_` with `L`; ids without an underscore are
returned unchanged. -/
def convertGmlIdToBuildingKey (gmlId : String) : String :=
  if containsChar '_' gmlId then replaceChar '_' 'L' gmlId else gmlId

/-- Model of `ConvertActualGmlIdToModified` (BuildingEnergyDisplay_v2.cpp:4809-4825):
convert an actual `gml_id` (`L` format) back to `modified_gml_id`
(underscore format) by replacing `L` with `_`; ids without an `L` are
returned unchanged. -/
def convertActualGmlIdToModified (actualGmlId : String) : String :=
  if containsChar 'L' actualGmlId then replaceChar 'L' '_' actualGmlId else actualGmlId

theorem replaceChar_data (a b : Char) (s : String) :
    (replaceChar a b s).data = s.data.map fun c => if c = a then b else c := rfl

theorem containsChar_replaceChar_self (a b : Char) (s : String)
    (h : containsChar a s = true) : containsChar b (replaceChar a b s) = true := by
  simp only [containsChar, replaceChar] at h ⊢
  replace h : a ∈ s.data := by simpa using h
  have hb : b ∈ s.data.map fun c => if c = a then b else c :=
    List.mem_map.mpr ⟨a, h, if_pos rfl⟩
  simpa using hb

theorem replaceChar_replaceChar (a b c : Char) (s : String) :
    replaceChar b c (replaceChar a b s) =
      ⟨s.data.map fun x => if x = a then c else if x = b then c else x⟩ := by
  simp only [replaceChar, List.map_map]
  congr 1
  refine List.map_congr_left fun x _ => ?_
  by_cases hxa : x = a
  · simp [hxa]
  · by_cases hxb : x = b <;> simp [hxa, hxb]

/-! ### The keyed store

`TMap<FString, V>` with the source's case-sensitive key policy is modelled by
an association list in insertion order: `Add` overwrites an existing entry in
place or appends a fresh one at the end, `Find`/`Contains` are exact key
lookups, and range-for iteration visits entries in insertion order (which is
what the source's fallback linear scans rely on). -/

/-- An insertion-ordered string-keyed map (model of `TMap<FString, V>`). -/
def SMap (α : Type) : Type := List (String × α)

instance instDecidableEqSMap {α : Type} [DecidableEq α] : DecidableEq (SMap α) :=
  inferInstanceAs (DecidableEq (List (String × α)))

namespace SMap

/-- The empty map. -/
def empty {α : Type} : SMap α := []

/-- Model of `TMap::Add`: overwrite the entry for `k` in place, or append it. -/
def add {α : Type} (m : SMap α) (k : String) (v : α) : SMap α :=
  match m with
  | [] => [(k, v)]
  | (k', v') :: rest => if k' = k then (k, v) :: rest else (k', v') :: add rest k v

/-- Model of `TMap::Find`: exact, case-sensitive lookup. -/
def find? {α : Type} (m : SMap α) (k : String) : Option α :=
  match m with
  | [] => none
  | (k', v') :: rest => if k' = k then some v' else find? rest k

/-- Model of `TMap::Contains`: exact, case-sensitive membership test. -/
def contains {α : Type} (m : SMap α) (k : String) : Bool :=
  (m.find? k).isSome

/-- The entries of the map, in insertion order. -/
def entries {α : Type} (m : SMap α) : List (String × α) := m

/-- Number of entries (`TMap::Num`). -/
def size {α : Type} (m : SMap α) : Nat := m.entries.length

theorem find?_add_self {α : Type} (m : SMap α) (k : String) (v : α) :
    (m.add k v).find? k = some v := by
  induction m with
  | nil => simp [add, find?]
  | cons kv rest ih =>
    obtain ⟨k', v'⟩ := kv
    by_cases h : k' = k
    · simp [add, find?, h]
    · simp [add, find?, h, ih]

theorem find?_add_of_ne {α : Type} (m : SMap α) (k k' : String) (v : α)
    (h : k ≠ k') : (m.add k v).find? k' = m.find? k' := by
  induction m with
  | nil => simp [add, find?, h]
  | cons kv rest ih =>
    obtain ⟨k0, v0⟩ := kv
    by_cases h0 : k0 = k
    · simp [add, find?, h0, h]
    · by_cases h1 : k0 = k' <;> simp [add, find?, h0, h1, ih, Ne.symm h]

theorem find?_mem {α : Type} (m : SMap α) (k : String) (v : α)
    (h : m.find? k = some v) : (k, v) ∈ m.entries := by
  induction m with
  | nil => simp [find?] at h
  | cons kv rest ih =>
    obtain ⟨k', v'⟩ := kv
    by_cases h0 : k' = k
    · simp [find?, h0] at h
      subst h0 h
      exact List.mem_cons_self _ _
    · simp [find?, h0] at h
      exact List.mem_cons_of_mem _ (ih h)

theorem contains_iff_find?_isSome {α : Type} (m : SMap α) (k : String) :
    m.contains k = true ↔ (m.find? k).isSome = true := Iff.rfl

end SMap

/-! ### Colors

`ConvertHexToLinearColor` (BuildingEnergyDisplay_v2.cpp:3037-3070) strips
`#`, validates a 6-hex-digit string, and converts through
`FColor::FromHex`/`FLinearColor::FromSRGBColor`; malformed input yields the
fixed fallback color `#66b032`.  The byte-level parse is embedded; the
final sRGB-to-linear numeric mapping is an injective engine primitive, so a
color is represented by the parsed byte triple (or the fallback constant). -/

/-- A cached building color: either the fixed fallback constant
`FLinearColor(0.4, 0.69, 0.2, 1.0)` or the linear color obtained from the
parsed `RRGGBB` byte triple. -/
inductive BuildingColor where
  | fallback
  | fromHex (r g b : Nat)
deriving DecidableEq

/-- The hex-digit check of `ConvertHexToLinearColor`
(`0-9`, `A-F`, `a-f`). -/
def isHexDigitChar (c : Char) : Bool :=
  ('0' ≤ c && c ≤ '9') || ('A' ≤ c && c ≤ 'F') || ('a' ≤ c && c ≤ 'f')

/-- Numeric value of a hex digit (`FParse`-style, as used by `FColor::FromHex`). -/
def hexVal (c : Char) : Nat :=
  if '0' ≤ c && c ≤ '9' then c.toNat - '0'.toNat
  else if 'A' ≤ c && c ≤ 'F' then c.toNat - 'A'.toNat + 10
  else c.toNat - 'a'.toNat + 10

/-- Model of `ConvertHexToLinearColor` (BuildingEnergyDisplay_v2.cpp:3037-3070). -/
def convertHexToLinearColor (hexColor : String) : BuildingColor :=
  let clean := hexColor.data.filter fun c => c ≠ '#'
  if clean.length ≠ 6 then .fallback
  else if !(clean.all isHexDigitChar) then .fallback
  else match clean with
    | [r1, r2, g1, g2, b1, b2] =>
        .fromHex (hexVal r1 * 16 + hexVal r2) (hexVal g1 * 16 + hexVal g2)
          (hexVal b1 * 16 + hexVal b2)
    | _ => .fallback

/-! ### Building records

JSON decoding is an external primitive; a building object of the bulk
response is therefore represented by the values the source's field probing
(BuildingEnergyDisplay_v2.cpp:997-1367) extracts from it. -/

/-- A 3D point (`FVector`); float components are modelled by rationals. -/
structure V3 where
  x : ℚ
  y : ℚ
  z : ℚ
deriving DecidableEq, Inhabited

/-- One element of the bulk-response building array, as seen by
`ParseAndCacheAllBuildings` after JSON decoding:
* `isValidObject`: `BuildingValue->AsObject()` succeeded (line 999);
* `modifiedGmlId`: the `modified_gml_id` field (line 1003; `""` if absent);
* `gmlId`: the `gml_id` field when present (lines 1022-1033);
* `hasEnergyResult`: a usable `energy_result`/`begin`/`end` structure was
  found by the probing of lines 1040-1114 (all three `continue` sites);
* `beginCO2`/`endCO2`/`beginSpec`/`endSpec`: the non-null integer `value`
  fields that the display message is built from (lines 1236-1322);
* `colorHex`: `end.color.energy_demand_specific_color` when present
  (lines 1153-1199);
* `numericId`: the numeric `id` field when present (lines 1336-1345);
* `coordinates`: the parsed coordinate list when the object carried a
  `coordinates`/`geom`/`position` field whose parse succeeded
  (lines 1347-1367 with `StoreBuildingCoordinates`). -/
structure BuildingJson where
  isValidObject : Bool
  modifiedGmlId : String
  gmlId : Option String
  hasEnergyResult : Bool
  beginCO2 : Option Int
  endCO2 : Option Int
  beginSpec : Option Int
  endSpec : Option Int
  colorHex : Option String
  numericId : Option Int
  coordinates : Option (List V3)
deriving DecidableEq

/-- The display payload cached for a building: the data that the
`DisplayMessage` string of lines 1230-1322 is a fixed rendering of (the
`Printf` formatting is presentation; both cache writes store the same
value). -/
structure DisplayPayload where
  buildingId : String
  beginCO2 : Option Int
  endCO2 : Option Int
  beginSpec : Option Int
  endSpec : Option Int
deriving DecidableEq

/-- A value stored in `BuildingDataCache`: the bulk loader stores the
formatted display message, the poll cycle stores the re-serialized JSON of
the changed record (both are `FString` in the source). -/
inductive CachedPayload where
  | display (p : DisplayPayload)
  | rawJson (s : String)
deriving DecidableEq

/-- One element of the poll response's `results` array, as seen by
`DetectAndApplyChanges` (lines 5542-5574): object validity, the
`modified_gml_id` field, the re-serialized JSON text of the whole object
(used both for snapshot comparison and as the new cached payload), and the
`end.color.energy_demand_specific_color` field when present. -/
structure BuildingResult where
  isValidObject : Bool
  modifiedGmlId : String
  serialized : String
  colorHex : Option String
deriving DecidableEq

/-! ### The system state -/

/-- Polling-interval constants (BuildingEnergyDisplay_v4.h:354-356, 375). -/
def fastPollingInterval : ℚ := 1

/-- The slow polling interval (`SlowPollingInterval = 5.0f`). -/
def slowPollingInterval : ℚ := 5

/-- Model of `SlowDownThreshold = 10` (BuildingEnergyDisplay_v4.h:375). -/
def slowDownThreshold : Nat := 10

/-- The fallback color hex used when no color field is found
(`"#66b032"`, line 1153). -/
def fallbackColorHex : String := "#66b032"

/-- The mutable state of `ABuildingEnergyDisplay` that the cache,
reconciliation and polling subsystem reads and writes. -/
structure SysState where
  buildingDataCache : SMap CachedPayload
  buildingColorCache : SMap BuildingColor
  gmlIdCache : SMap String
  buildingCoordinatesCache : SMap (List V3)
  bDataLoaded : Bool
  bIsLoading : Bool
  previousBuildingDataSnapshot : SMap String
  previousColorSnapshot : SMap BuildingColor
  noChangesCount : Nat
  realTimeUpdateInterval : ℚ
  bIsPerformingRealTimeUpdate : Bool
  bEnhancedPollingMode : Bool
deriving DecidableEq

/-- The initial state (field initializers of BuildingEnergyDisplay_v4.h). -/
def initialState : SysState where
  buildingDataCache := SMap.empty
  buildingColorCache := SMap.empty
  gmlIdCache := SMap.empty
  buildingCoordinatesCache := SMap.empty
  bDataLoaded := false
  bIsLoading := false
  previousBuildingDataSnapshot := SMap.empty
  previousColorSnapshot := SMap.empty
  noChangesCount := 0
  realTimeUpdateInterval := 2
  bIsPerformingRealTimeUpdate := false
  bEnhancedPollingMode := true

/-! ### Bulk load: `ParseAndCacheAllBuildings` -/

/-- The canonical (actual) id of a building record: the server-supplied
`gml_id` when present, else `modified_gml_id` with `_` replaced by `L`
(lines 1022-1033). -/
def actualIdOf (b : BuildingJson) : String :=
  match b.gmlId with
  | some g => g
  | none => replaceChar '_' 'L' b.modifiedGmlId

/-- The display payload built for a building (lines 1230-1322). -/
def displayPayload (b : BuildingJson) : DisplayPayload where
  buildingId := b.modifiedGmlId
  beginCO2 := b.beginCO2
  endCO2 := b.endCO2
  beginSpec := b.beginSpec
  endSpec := b.endSpec

/-- The color cached for a building: the extracted hex (or the fallback hex
when no color field was found, line 1153) through `ConvertHexToLinearColor`
(line 1202). -/
def extractedColor (b : BuildingJson) : BuildingColor :=
  convertHexToLinearColor (b.colorHex.getD fallbackColorHex)

/-- The coordinate-cache key: `"<modified_gml_id>#<numeric id>"` when the
object carries a numeric `id`, else the plain id (lines 1335-1345). -/
def uniqueCacheKey (b : BuildingJson) : String :=
  match b.numericId with
  | some n => b.modifiedGmlId ++ "#" ++ toString n
  | none => b.modifiedGmlId

/-- All coordinate points cached under keys starting with `base`
(the `StartsWith` collection loop of lines 1377-1384). -/
def combinedCoordsStartingWith (m : SMap (List V3)) (base : String) : List V3 :=
  m.entries.foldl (fun acc kv => if base.data.isPrefixOf kv.1.data then acc ++ kv.2 else acc) []

/-- Processing of a single element of the bulk building array
(the loop body of `ParseAndCacheAllBuildings`, lines 997-1392). -/
def processBuilding (s : SysState) (b : BuildingJson) : SysState :=
  if b.isValidObject = false then s
  else
    let bid := b.modifiedGmlId
    let actual := actualIdOf b
    -- line 1036: the id-alias mapping is cached before the energy checks
    let s1 := { s with gmlIdCache := s.gmlIdCache.add bid actual }
    if b.hasEnergyResult = false then s1
    else
      -- lines 1153-1227: color extraction and caching (primary, then alias)
      let color := extractedColor b
      let s2 := { s1 with buildingColorCache := s1.buildingColorCache.add bid color }
      let s3 :=
        if actual ≠ "" ∧ actual ≠ bid then
          { s2 with buildingColorCache := s2.buildingColorCache.add actual color }
        else s2
      -- line 1328: display payload under the primary id
      let payload := CachedPayload.display (displayPayload b)
      let s4 := { s3 with buildingDataCache := s3.buildingDataCache.add bid payload }
      -- lines 1335-1367: coordinates under the (possibly compound) key
      let s5 :=
        match b.coordinates with
        | some pts =>
            { s4 with buildingCoordinatesCache :=
                s4.buildingCoordinatesCache.add (uniqueCacheKey b) pts }
        | none => s4
      -- lines 1372-1391: alias entries for the data and coordinate caches
      if actual ≠ "" ∧ actual ≠ bid then
        let s6 := { s5 with buildingDataCache := s5.buildingDataCache.add actual payload }
        let combined := combinedCoordsStartingWith s6.buildingCoordinatesCache bid
        if combined ≠ [] then
          { s6 with buildingCoordinatesCache :=
              s6.buildingCoordinatesCache.add actual combined }
        else s6
      else s5

/-- Model of `CleanDuplicateColorCacheEntries` (lines 6730-6789): rebuild the color
cache keeping the first entry for each (case-sensitive) key. -/
def cleanDuplicateColorCacheEntries (m : SMap BuildingColor) : SMap BuildingColor :=
  m.entries.foldl
    (fun acc kv => if acc.contains kv.1 then acc else acc.add kv.1 kv.2) SMap.empty

/-- Outcome of JSON-decoding the bulk response body (decoding itself is an
external primitive). -/
inductive BulkParseOutcome where
  | badJson
  | array (bs : List BuildingJson)

/-- Model of `ParseAndCacheAllBuildings` (lines 961-1445): on a decodable array,
process every building, mark the store loaded, and run the automatic
duplicate-color cleaning pass; on undecodable JSON, change nothing. -/
def parseAndCacheAllBuildings (s : SysState) (input : BulkParseOutcome) : SysState :=
  match input with
  | .badJson => s
  | .array bs =>
      let s1 := bs.foldl processBuilding s
      let s2 := { s1 with bDataLoaded := true }
      { s2 with buildingColorCache := cleanDuplicateColorCacheEntries s2.buildingColorCache }

/-! ### `ClearCache` -/

/-- Model of `ClearCache` (lines 2154-2165): empties `BuildingDataCache` and
`GmlIdCache` and resets the loaded/loading flags. -/
def clearCache (s : SysState) : SysState :=
  { s with buildingDataCache := SMap.empty, gmlIdCache := SMap.empty,
           bDataLoaded := false, bIsLoading := false }

/-! ### Poll cycle: `OnRealTimeDataResponse`, `DetectAndApplyChanges`,
`UpdatePollingStrategy` -/

/-- Model of `UpdatePollingStrategy` (lines 5618-5650). -/
def updatePollingStrategy (s : SysState) (bChangesDetected : Bool) : SysState :=
  if s.bEnhancedPollingMode = false then s
  else if bChangesDetected then
    { s with noChangesCount := 0, realTimeUpdateInterval := fastPollingInterval }
  else
    let c := s.noChangesCount + 1
    if slowDownThreshold ≤ c then
      { s with noChangesCount := c, realTimeUpdateInterval := slowPollingInterval }
    else
      { s with noChangesCount := c, realTimeUpdateInterval := fastPollingInterval }

/-- Outcome of JSON-decoding the poll response body. -/
inductive PollBody where
  | badJson
  | noResultsArray
  | results (rs : List BuildingResult)

/-- A completed poll HTTP exchange, as seen by `OnRealTimeDataResponse`. -/
structure PollResponse where
  bWasSuccessful : Bool
  responseValid : Bool
  responseCode : Int
  contentEmpty : Bool
  body : PollBody

/-- The change-collection loop of `DetectAndApplyChanges`
(lines 5542-5575): returns the changed-id list and the new data/color maps.
A record counts as changed when the snapshot has no entry for its id or the
entry differs from the record's serialized form. -/
def collectChanges (snap : SMap String) (rs : List BuildingResult) :
    List String × SMap String × SMap BuildingColor :=
  rs.foldl
    (fun acc r =>
      let (changed, newData, newColor) := acc
      if r.isValidObject = false then acc
      else if r.modifiedGmlId = "" then acc
      else if snap.find? r.modifiedGmlId = some r.serialized then acc
      else
        let changed' := changed ++ [r.modifiedGmlId]
        let newData' := newData.add r.modifiedGmlId r.serialized
        match r.colorHex with
        | some hex =>
            (changed', newData', newColor.add r.modifiedGmlId (convertHexToLinearColor hex))
        | none => (changed', newData', newColor))
    ([], SMap.empty, SMap.empty)

/-- The change-application loop of `DetectAndApplyChanges`
(lines 5578-5598): for every changed id, rewrite the data cache and data
snapshot, and the color cache and color snapshot when a color was
extracted. -/
def applyChanges (s : SysState) (changed : List String) (newData : SMap String)
    (newColor : SMap BuildingColor) : SysState :=
  changed.foldl
    (fun st id =>
      let st1 :=
        match newData.find? id with
        | some d =>
            { st with buildingDataCache := st.buildingDataCache.add id (.rawJson d),
                      previousBuildingDataSnapshot :=
                        st.previousBuildingDataSnapshot.add id d }
        | none => st
      match newColor.find? id with
      | some c =>
          { st1 with buildingColorCache := st1.buildingColorCache.add id c,
                     previousColorSnapshot := st1.previousColorSnapshot.add id c }
      | none => st1)
    s

/-- Model of `DetectAndApplyChanges` (lines 5517-5616).  Undecodable JSON or a
missing `results` array changes nothing; otherwise detected changes are
applied and the polling strategy updated. -/
def detectAndApplyChanges (s : SysState) (body : PollBody) : SysState :=
  match body with
  | .badJson => s
  | .noResultsArray => s
  | .results rs =>
      match collectChanges s.previousBuildingDataSnapshot rs with
      | (changed, newData, newColor) =>
        if changed ≠ [] then
          updatePollingStrategy (applyChanges s changed newData newColor) true
        else
          updatePollingStrategy s false

/-- Model of `OnRealTimeDataResponse` (lines 5490-5515): clear the in-progress flag,
then bail out on transport failure, non-200 status or empty body; otherwise
run change detection. -/
def onRealTimeDataResponse (s : SysState) (r : PollResponse) : SysState :=
  let s0 := { s with bIsPerformingRealTimeUpdate := false }
  if !r.bWasSuccessful || !r.responseValid then s0
  else if r.responseCode ≠ 200 then s0
  else if r.contentEmpty then s0
  else detectAndApplyChanges s0 r.body

/-! ### Auxiliary lemmas and sample states -/

theorem updatePollingStrategy_false_eq (s : SysState)
    (h : s.bEnhancedPollingMode = true) :
    updatePollingStrategy s false =
      { s with noChangesCount := s.noChangesCount + 1,
               realTimeUpdateInterval :=
                 if slowDownThreshold ≤ s.noChangesCount + 1 then slowPollingInterval
                 else fastPollingInterval } := by
  unfold updatePollingStrategy
  rw [h]
  split_ifs with h1 h2 <;> simp_all

/-- Iterated no-change poll results applied to the polling strategy. -/
def noChangePolls : Nat → SysState → SysState
  | 0, s => s
  | n + 1, s => noChangePolls n (updatePollingStrategy s false)

theorem noChangePolls_spec (n : Nat) (s : SysState)
    (h : s.bEnhancedPollingMode = true) :
    (noChangePolls n s).noChangesCount = s.noChangesCount + n ∧
    (noChangePolls n s).bEnhancedPollingMode = true ∧
    (noChangePolls n s).realTimeUpdateInterval =
      (if n = 0 then s.realTimeUpdateInterval
       else if slowDownThreshold ≤ s.noChangesCount + n then slowPollingInterval
       else fastPollingInterval) := by
  induction n generalizing s with
  | zero => simp [noChangePolls, h]
  | succ n ih =>
    have hstep := updatePollingStrategy_false_eq s h
    have h' : (updatePollingStrategy s false).bEnhancedPollingMode = true := by
      rw [hstep]
      exact h
    obtain ⟨ih1, ih2, ih3⟩ := ih (updatePollingStrategy s false) h'
    refine ⟨?_, ?_, ?_⟩
    · rw [show noChangePolls (n + 1) s = noChangePolls n (updatePollingStrategy s false)
          from rfl, ih1, hstep]
      -- counts: (s.count + 1) + n = s.count + (n + 1)
      simp [Nat.add_assoc, Nat.add_comm 1 n]
    · rw [show noChangePolls (n + 1) s = noChangePolls n (updatePollingStrategy s false)
          from rfl]
      exact ih2
    · rw [show noChangePolls (n + 1) s = noChangePolls n (updatePollingStrategy s false)
          from rfl, ih3, hstep]
      rcases Nat.eq_zero_or_pos n with hn | hn
      · subst hn
        simp
      · have hn' : n ≠ 0 := Nat.pos_iff_ne_zero.mp hn
        have hcount : s.noChangesCount + 1 + n = s.noChangesCount + (n + 1) := by
          omega
        simp [hn', hcount]

/-- A concrete bulk-response building: primary id `A_1`, canonical id
`AL1`, red color, full energy data. -/
def sampleBuilding : BuildingJson where
  isValidObject := true
  modifiedGmlId := "A_1"
  gmlId := some "AL1"
  hasEnergyResult := true
  beginCO2 := some 100
  endCO2 := some 50
  beginSpec := some 200
  endSpec := some 80
  colorHex := some "#ff0000"
  numericId := none
  coordinates := none

/-- The state after bulk-loading just `sampleBuilding`. -/
def loadedState : SysState :=
  parseAndCacheAllBuildings initialState (.array [sampleBuilding])

/-- A poll result for `A_1` carrying a different serialized body and a
green color. -/
def sampleChangedResult : BuildingResult where
  isValidObject := true
  modifiedGmlId := "A_1"
  serialized := "serialized-A_1-version-2"
  colorHex := some "#00ff00"

/-! ### Claim C3 — `ClearCache` -/

/-- Counterexample to claim C3 as stated: `ClearCache` does *not* empty all
four building-keyed maps.  Starting from the state produced by bulk-loading
one building, after `ClearCache()` the color cache still holds its two
entries (only the data cache and the ID-alias cache are emptied). -/
theorem claim3_clear_counterexample :
    ¬ ((clearCache loadedState).buildingDataCache = SMap.empty ∧
       (clearCache loadedState).buildingColorCache = SMap.empty ∧
       (clearCache loadedState).gmlIdCache = SMap.empty ∧
       (clearCache loadedState).buildingCoordinatesCache = SMap.empty) := by
  intro h
  exact absurd h.2.1 (by decide)

/-- Claim C3 (amended): `ClearCache()` empties the data cache and the
ID-alias cache and resets the loaded (and loading) flags to false, for
every prior store state; the color cache and the coordinate cache are left
exactly as they were. -/
theorem claim3_clearCache_partial_clear (s : SysState) :
    (clearCache s).buildingDataCache = SMap.empty ∧
    (clearCache s).gmlIdCache = SMap.empty ∧
    (clearCache s).bDataLoaded = false ∧
    (clearCache s).bIsLoading = false ∧
    (clearCache s).buildingColorCache = s.buildingColorCache ∧
    (clearCache s).buildingCoordinatesCache = s.buildingCoordinatesCache :=
  ⟨rfl, rfl, rfl, rfl, rfl, rfl⟩

/-! ### Claim C5 — adaptive polling backpressure -/

/-- Claim C5: with enhanced polling enabled and the no-change counter at
zero, after `N ≥ 10` consecutive no-change poll results the interval is the
slow value and the counter equals `N`; after between 1 and 9 no-change
results the interval is (still) the fast value; and any poll result
reporting changes resets the counter to zero and the interval to the fast
value. -/
theorem claim5_adaptive_polling (s : SysState) (N : Nat)
    (henh : s.bEnhancedPollingMode = true) (hzero : s.noChangesCount = 0) :
    (slowDownThreshold ≤ N →
      (noChangePolls N s).realTimeUpdateInterval = slowPollingInterval ∧
      (noChangePolls N s).noChangesCount = N) ∧
    (1 ≤ N → N < slowDownThreshold →
      (noChangePolls N s).realTimeUpdateInterval = fastPollingInterval) ∧
    (∀ t : SysState, t.bEnhancedPollingMode = true →
      (updatePollingStrategy t true).noChangesCount = 0 ∧
      (updatePollingStrategy t true).realTimeUpdateInterval = fastPollingInterval) := by
  obtain ⟨h1, _, h3⟩ := noChangePolls_spec N s henh
  rw [hzero] at h1 h3
  simp only [Nat.zero_add] at h1 h3
  refine ⟨fun hN => ?_, fun hN1 hN2 => ?_, fun t ht => ?_⟩
  · have hN0 : N ≠ 0 := by
      intro h
      rw [h] at hN
      exact absurd hN (by decide)
    rw [h3, if_neg hN0, if_pos hN]
    exact ⟨rfl, h1⟩
  · have hN0 : N ≠ 0 := by omega
    rw [h3, if_neg hN0, if_neg (by omega)]
  · unfold updatePollingStrategy
    rw [ht]
    simp

/-- Witness for C5: from the initial state (enhanced polling on, counter 0),
10 no-change polls give the slow interval and counter 10, 3 no-change polls
leave the fast interval, and a changed poll resets the counter. -/
theorem claim5_adaptive_polling_witness :
    (noChangePolls 10 initialState).realTimeUpdateInterval = slowPollingInterval ∧
    (noChangePolls 10 initialState).noChangesCount = 10 ∧
    (noChangePolls 3 initialState).realTimeUpdateInterval = fastPollingInterval ∧
    (updatePollingStrategy initialState true).noChangesCount = 0 := by
  have h10 := claim5_adaptive_polling initialState 10 rfl rfl
  have h3 := claim5_adaptive_polling initialState 3 rfl rfl
  exact ⟨(h10.1 (by decide)).1, (h10.1 (by decide)).2,
    h3.2.1 (by decide) (by decide), (h10.2.2 initialState rfl).1⟩

/-! ### Claim C9 — failed poll cycles are skipped atomically -/

/-- Claim C9: for every poll response representing a transport failure, an
invalid response object, a non-200 status, an empty body, an unparseable
JSON body, or a body without the expected `results` array, the poll cycle
leaves the entire state unchanged except for clearing the in-progress flag
(so the next scheduled poll can retry); the caches, snapshots, no-change
counter and polling interval are untouched, and the handler returns
normally (no error value exists in its signature). -/
theorem claim9_poll_failure_skipped (s : SysState) (r : PollResponse)
    (h : r.bWasSuccessful = false ∨ r.responseValid = false ∨
         r.responseCode ≠ 200 ∨ r.contentEmpty = true ∨
         r.body = PollBody.badJson ∨ r.body = PollBody.noResultsArray) :
    onRealTimeDataResponse s r = { s with bIsPerformingRealTimeUpdate := false } := by
  unfold onRealTimeDataResponse
  split_ifs with h1 h2 h3
  · rfl
  · rfl
  · rfl
  · rcases h with h | h | h | h | h | h
    · rw [h] at h1
      simp at h1
    · rw [h] at h1
      simp at h1
    · exact absurd h h2
    · rw [h] at h3
      exact absurd rfl h3
    · rw [h]
      rfl
    · rw [h]
      rfl

/-- Witness for C9: a concrete HTTP-500 poll response against the
bulk-loaded state changes nothing but the in-progress flag. -/
theorem claim9_poll_failure_skipped_witness :
    onRealTimeDataResponse loadedState
        { bWasSuccessful := true, responseValid := true, responseCode := 500,
          contentEmpty := false, body := PollBody.badJson } =
      { loadedState with bIsPerformingRealTimeUpdate := false } :=
  claim9_poll_failure_skipped loadedState _ (Or.inr (Or.inr (Or.inl (by decide))))

/-! ### Claim C1 — dual-key store consistency -/

/-- The keys a bulk-load loop iteration writes to the data cache and the
color cache. -/
def touchedDataKeys (b : BuildingJson) : List String :=
  if b.isValidObject = false then []
  else if b.hasEnergyResult = false then []
  else if actualIdOf b ≠ "" ∧ actualIdOf b ≠ b.modifiedGmlId then
    [b.modifiedGmlId, actualIdOf b]
  else [b.modifiedGmlId]

theorem processBuilding_dataCache_eq (s : SysState) (b : BuildingJson) :
    (processBuilding s b).buildingDataCache =
      if b.isValidObject = false then s.buildingDataCache
      else if b.hasEnergyResult = false then s.buildingDataCache
      else if actualIdOf b ≠ "" ∧ actualIdOf b ≠ b.modifiedGmlId then
        (s.buildingDataCache.add b.modifiedGmlId
            (.display (displayPayload b))).add (actualIdOf b)
          (.display (displayPayload b))
      else s.buildingDataCache.add b.modifiedGmlId (.display (displayPayload b)) := by
  cases hco : b.coordinates <;>
    (unfold processBuilding; rw [hco]; dsimp only; split_ifs <;> rfl)

theorem processBuilding_colorCache_eq (s : SysState) (b : BuildingJson) :
    (processBuilding s b).buildingColorCache =
      if b.isValidObject = false then s.buildingColorCache
      else if b.hasEnergyResult = false then s.buildingColorCache
      else if actualIdOf b ≠ "" ∧ actualIdOf b ≠ b.modifiedGmlId then
        (s.buildingColorCache.add b.modifiedGmlId (extractedColor b)).add
          (actualIdOf b) (extractedColor b)
      else s.buildingColorCache.add b.modifiedGmlId (extractedColor b) := by
  cases hco : b.coordinates <;>
    (unfold processBuilding; rw [hco]; dsimp only; split_ifs <;> rfl)

theorem processBuilding_find?_of_not_touched (s : SysState) (b : BuildingJson)
    (k : String) (hk : k ∉ touchedDataKeys b) :
    (processBuilding s b).buildingDataCache.find? k = s.buildingDataCache.find? k ∧
    (processBuilding s b).buildingColorCache.find? k = s.buildingColorCache.find? k := by
  rw [processBuilding_dataCache_eq, processBuilding_colorCache_eq]
  unfold touchedDataKeys at hk
  split_ifs at hk ⊢ with h1 h2 h3
  · exact ⟨rfl, rfl⟩
  · exact ⟨rfl, rfl⟩
  · simp only [List.mem_cons, List.mem_singleton, not_or] at hk
    obtain ⟨hk1, hk2, -⟩ := hk
    rw [SMap.find?_add_of_ne _ _ _ _ (Ne.symm hk2),
        SMap.find?_add_of_ne _ _ _ _ (Ne.symm hk1),
        SMap.find?_add_of_ne _ _ _ _ (Ne.symm hk2),
        SMap.find?_add_of_ne _ _ _ _ (Ne.symm hk1)]
    exact ⟨rfl, rfl⟩
  · simp only [List.mem_singleton] at hk
    rw [SMap.find?_add_of_ne _ _ _ _ (Ne.symm hk),
        SMap.find?_add_of_ne _ _ _ _ (Ne.symm hk)]
    exact ⟨rfl, rfl⟩

theorem foldl_processBuilding_find?_of_not_touched (bs : List BuildingJson)
    (s : SysState) (k : String) (hk : ∀ b ∈ bs, k ∉ touchedDataKeys b) :
    (bs.foldl processBuilding s).buildingDataCache.find? k =
      s.buildingDataCache.find? k ∧
    (bs.foldl processBuilding s).buildingColorCache.find? k =
      s.buildingColorCache.find? k := by
  induction bs generalizing s with
  | nil => exact ⟨rfl, rfl⟩
  | cons b rest ih =>
    have hstep := processBuilding_find?_of_not_touched s b k
      (hk b (List.mem_cons_self _ _))
    have hrest := ih (processBuilding s b) fun b' hb' =>
      hk b' (List.mem_cons_of_mem _ hb')
    exact ⟨hrest.1.trans hstep.1, hrest.2.trans hstep.2⟩

theorem dedup_foldl_find? (l : List (String × BuildingColor))
    (acc : SMap BuildingColor) (k : String) :
    (l.foldl (fun acc kv => if acc.contains kv.1 then acc else acc.add kv.1 kv.2)
        acc).find? k =
      if (acc.find? k).isSome then acc.find? k else SMap.find? l k := by
  induction l generalizing acc with
  | nil => cases h : acc.find? k <;> simp [SMap.find?, h]
  | cons kv rest ih =>
    obtain ⟨k0, v0⟩ := kv
    simp only [List.foldl_cons]
    rw [ih]
    by_cases hc : acc.contains k0 = true
    · rw [if_pos hc]
      cases hacc : acc.find? k with
      | some v => simp [hacc]
      | none =>
        have hk0 : k0 ≠ k := by
          intro h
          subst h
          simp [SMap.contains, hacc] at hc
        simp [SMap.find?, hk0, hacc]
    · rw [if_neg hc]
      by_cases hk0 : k0 = k
      · subst hk0
        have hacc : acc.find? k0 = none := by
          cases h : acc.find? k0
          · rfl
          · simp [SMap.contains, h] at hc
        rw [SMap.find?_add_self]
        simp [hacc, SMap.find?]
      · rw [SMap.find?_add_of_ne _ _ _ _ hk0]
        cases hacc : acc.find? k <;> simp [hacc, SMap.find?, hk0]

theorem cleanDuplicateColorCacheEntries_find? (m : SMap BuildingColor) (k : String) :
    (cleanDuplicateColorCacheEntries m).find? k = m.find? k := by
  unfold cleanDuplicateColorCacheEntries
  rw [dedup_foldl_find?]
  simp [SMap.empty, SMap.find?, SMap.entries]

/-- Claim C1 (amended): the dual-key consistency invariant holds after a
*bulk load*: for every building record of the loaded array whose canonical
id is non-empty and differs from its primary id, and whose two keys are not
rewritten by a later record of the same array, the data cache and the color
cache hold entries under both ids with an identical display payload and an
identical color.  (The poll-cycle update does *not* maintain this: it
rewrites only the primary-id entries, see the counterexample.) -/
theorem claim1_bulk_load_dual_key_consistency (s : SysState)
    (pre post : List BuildingJson) (b : BuildingJson)
    (hv : b.isValidObject = true) (he : b.hasEnergyResult = true)
    (hne : actualIdOf b ≠ "") (hdiff : actualIdOf b ≠ b.modifiedGmlId)
    (hpost : ∀ b' ∈ post, b.modifiedGmlId ∉ touchedDataKeys b' ∧
      actualIdOf b ∉ touchedDataKeys b') :
    ((parseAndCacheAllBuildings s (.array (pre ++ b :: post))).buildingDataCache.find?
        b.modifiedGmlId = some (.display (displayPayload b))) ∧
    ((parseAndCacheAllBuildings s (.array (pre ++ b :: post))).buildingDataCache.find?
        (actualIdOf b) = some (.display (displayPayload b))) ∧
    ((parseAndCacheAllBuildings s (.array (pre ++ b :: post))).buildingColorCache.find?
        b.modifiedGmlId = some (extractedColor b)) ∧
    ((parseAndCacheAllBuildings s (.array (pre ++ b :: post))).buildingColorCache.find?
        (actualIdOf b) = some (extractedColor b)) := by
  have hfold :
      (pre ++ b :: post).foldl processBuilding s =
        post.foldl processBuilding (processBuilding (pre.foldl processBuilding s) b) := by
    rw [List.foldl_append, List.foldl_cons]
  set s1 := pre.foldl processBuilding s with hs1
  set s2 := processBuilding s1 b with hs2
  have hdata : s2.buildingDataCache =
      (s1.buildingDataCache.add b.modifiedGmlId (.display (displayPayload b))).add
        (actualIdOf b) (.display (displayPayload b)) := by
    rw [hs2, processBuilding_dataCache_eq]
    simp [hv, he, hne, hdiff]
  have hcolor : s2.buildingColorCache =
      (s1.buildingColorCache.add b.modifiedGmlId (extractedColor b)).add
        (actualIdOf b) (extractedColor b) := by
    rw [hs2, processBuilding_colorCache_eq]
    simp [hv, he, hne, hdiff]
  have hprim : ∀ B, post.foldl processBuilding s2 = B →
      B.buildingDataCache.find? b.modifiedGmlId =
        some (.display (displayPayload b)) ∧
      B.buildingDataCache.find? (actualIdOf b) =
        some (.display (displayPayload b)) ∧
      B.buildingColorCache.find? b.modifiedGmlId = some (extractedColor b) ∧
      B.buildingColorCache.find? (actualIdOf b) = some (extractedColor b) := by
    intro B hB
    subst hB
    have hp := foldl_processBuilding_find?_of_not_touched post s2 b.modifiedGmlId
      fun b' hb' => (hpost b' hb').1
    have ha := foldl_processBuilding_find?_of_not_touched post s2 (actualIdOf b)
      fun b' hb' => (hpost b' hb').2
    refine ⟨?_, ?_, ?_, ?_⟩
    · rw [hp.1, hdata, SMap.find?_add_of_ne _ _ _ _ hdiff, SMap.find?_add_self]
    · rw [ha.1, hdata, SMap.find?_add_self]
    · rw [hp.2, hcolor, SMap.find?_add_of_ne _ _ _ _ hdiff, SMap.find?_add_self]
    · rw [ha.2, hcolor, SMap.find?_add_self]
  have hmain := hprim (post.foldl processBuilding s2) rfl
  have hdc : (parseAndCacheAllBuildings s (.array (pre ++ b :: post))).buildingDataCache
      = (List.foldl processBuilding s (pre ++ b :: post)).buildingDataCache := rfl
  have hcc : (parseAndCacheAllBuildings s (.array (pre ++ b :: post))).buildingColorCache
      = cleanDuplicateColorCacheEntries
          ((List.foldl processBuilding s (pre ++ b :: post)).buildingColorCache) := rfl
  rw [hdc, hcc, hfold]
  refine ⟨hmain.1, hmain.2.1, ?_, ?_⟩
  · rw [cleanDuplicateColorCacheEntries_find?]
    exact hmain.2.2.1
  · rw [cleanDuplicateColorCacheEntries_find?]
    exact hmain.2.2.2

/-- Witness for the amended C1: bulk-loading the single concrete building
`A_1`/`AL1` yields identical payloads and identical (red) colors under both
keys. -/
theorem claim1_bulk_load_dual_key_consistency_witness :
    loadedState.buildingDataCache.find? "A_1" =
      some (.display (displayPayload sampleBuilding)) ∧
    loadedState.buildingDataCache.find? "AL1" =
      some (.display (displayPayload sampleBuilding)) ∧
    loadedState.buildingColorCache.find? "A_1" = some (BuildingColor.fromHex 255 0 0) ∧
    loadedState.buildingColorCache.find? "AL1" = some (BuildingColor.fromHex 255 0 0) := by
  have h := claim1_bulk_load_dual_key_consistency initialState [] [] sampleBuilding
    rfl rfl (by decide) (by decide) (by intro b' hb'; cases hb')
  have hc : extractedColor sampleBuilding = BuildingColor.fromHex 255 0 0 := by decide
  rw [hc] at h
  exact h

/-- The state after the bulk load of `sampleBuilding` followed by one poll
cycle in which `A_1` changed (new serialized body, green color). -/
def polledState : SysState :=
  detectAndApplyChanges loadedState (.results [sampleChangedResult])

/-- Counterexample to claim C1 as stated: after a poll-cycle update of a
record whose canonical id (`AL1`) is non-empty and differs from its primary
id (`A_1`), the data cache and the color cache entries under the two ids
are *not* identical — the poll path rewrites only the primary-id entries
(lines 5577-5598), so the canonical-id entries keep the stale payload and
the stale (red, not green) color. -/
theorem claim1_poll_update_counterexample :
    polledState.buildingDataCache.find? "A_1" ≠
      polledState.buildingDataCache.find? "AL1" ∧
    polledState.buildingColorCache.find? "A_1" ≠
      polledState.buildingColorCache.find? "AL1" := by
  decide

/-! ### Claim C2 — case-sensitive key semantics -/

theorem SMap.find?_add_isSome {α : Type} (m : SMap α) (k k' : String) (v : α) :
    ((m.add k v).find? k').isSome = true ↔
      ((m.find? k').isSome = true ∨ k' = k) := by
  by_cases h : k = k'
  · subst h
    simp [SMap.find?_add_self]
  · rw [SMap.find?_add_of_ne _ _ _ _ h]
    simp [Ne.symm h]

/-- All keys that a bulk load writes to the data cache, verbatim. -/
def bulkDataKeys (bs : List BuildingJson) : List String :=
  (bs.map touchedDataKeys).flatten

theorem processBuilding_dataCache_isSome (s : SysState) (b : BuildingJson)
    (k : String) :
    (((processBuilding s b).buildingDataCache.find? k).isSome = true) ↔
      (((s.buildingDataCache.find? k).isSome = true) ∨ k ∈ touchedDataKeys b) := by
  rw [processBuilding_dataCache_eq]
  unfold touchedDataKeys
  split_ifs with h1 h2 h3
  · simp
  · simp
  · rw [SMap.find?_add_isSome, SMap.find?_add_isSome]
    simp [or_assoc]
  · rw [SMap.find?_add_isSome]
    simp

theorem foldl_processBuilding_dataCache_isSome (bs : List BuildingJson)
    (s : SysState) (k : String) :
    (((bs.foldl processBuilding s).buildingDataCache.find? k).isSome = true) ↔
      (((s.buildingDataCache.find? k).isSome = true) ∨ k ∈ bulkDataKeys bs) := by
  induction bs generalizing s with
  | nil => simp [bulkDataKeys]
  | cons b rest ih =>
    rw [show (b :: rest).foldl processBuilding s
          = rest.foldl processBuilding (processBuilding s b) from rfl,
        ih, processBuilding_dataCache_isSome]
    have hsplit : bulkDataKeys (b :: rest) = touchedDataKeys b ++ bulkDataKeys rest := rfl
    rw [hsplit]
    simp [or_assoc, List.mem_append]

/-- Claim C2: building identifiers are never case-normalized in the store.
After a bulk load, a lookup succeeds exactly for the keys stored verbatim
(the ids extracted from the response, plus whatever was already cached) —
so for any pair of keys `k ≠ k'` that differ only in letter case, looking
up `k'` returns nothing unless `k'` itself was stored: `Get` is an exact,
case-sensitive lookup with no normalization. -/
theorem claim2_case_sensitive_lookup (s : SysState) (bs : List BuildingJson)
    (k k' : String) (_hcase : k.data.map Char.toLower = k'.data.map Char.toLower)
    (_hne : k ≠ k') :
    (∀ q : String,
      (((parseAndCacheAllBuildings s (.array bs)).buildingDataCache.find? q).isSome
          = true) ↔
        (((s.buildingDataCache.find? q).isSome = true) ∨ q ∈ bulkDataKeys bs)) ∧
    (k' ∉ bulkDataKeys bs → s.buildingDataCache.find? k' = none →
      (parseAndCacheAllBuildings s (.array bs)).buildingDataCache.find? k' = none) := by
  have hdc : (parseAndCacheAllBuildings s (.array bs)).buildingDataCache
      = (bs.foldl processBuilding s).buildingDataCache := rfl
  constructor
  · intro q
    rw [hdc]
    exact foldl_processBuilding_dataCache_isSome bs s q
  · intro hnotin hnone
    rw [hdc]
    cases hfind : (bs.foldl processBuilding s).buildingDataCache.find? k' with
    | none => rfl
    | some v =>
      have : ((bs.foldl processBuilding s).buildingDataCache.find? k').isSome = true := by
        rw [hfind]
        rfl
      rw [foldl_processBuilding_dataCache_isSome] at this
      rcases this with h | h
      · rw [hnone] at h
        exact absurd h (by decide)
      · exact absurd h hnotin

/-- Witness for C2: loading the building with primary id `A_1` and canonical
id `AL1` makes `A_1` visible but the case-variant `a_1` invisible. -/
theorem claim2_case_sensitive_lookup_witness :
    ((loadedState.buildingDataCache.find? "A_1").isSome = true) ∧
    loadedState.buildingDataCache.find? "a_1" = none := by
  have h := claim2_case_sensitive_lookup initialState [sampleBuilding] "A_1" "a_1"
    (by decide) (by decide)
  exact ⟨(h.1 "A_1").mpr (Or.inr (by decide)), h.2 (by decide) rfl⟩

/-! ### Spatial model — bounding boxes and point-in-polygon

`FVector` float components are modelled by rationals; `FMath::Min/Max` is
componentwise `min`/`max`. -/

/-- The zero vector (`FVector::ZeroVector`). -/
def zeroV : V3 := ⟨0, 0, 0⟩

/-- Componentwise minimum of two vectors. -/
def vmin (a b : V3) : V3 := ⟨min a.x b.x, min a.y b.y, min a.z b.z⟩

/-- Componentwise maximum of two vectors. -/
def vmax (a b : V3) : V3 := ⟨max a.x b.x, max a.y b.y, max a.z b.z⟩

/-- Componentwise difference (`MaxBounds - MinBounds`). -/
def vsub (a b : V3) : V3 := ⟨a.x - b.x, a.y - b.y, a.z - b.z⟩

/-- Componentwise midpoint (`(MinBounds + MaxBounds) * 0.5f`). -/
def vhalfSum (a b : V3) : V3 := ⟨(a.x + b.x) / 2, (a.y + b.y) / 2, (a.z + b.z) / 2⟩

/-- Model of `FBuildingBoundingBox` (BuildingEnergyDisplay_v4.h:24-48). -/
structure BBox where
  minB : V3
  maxB : V3
  center : V3
  size : V3
deriving DecidableEq

/-- The default-constructed (degenerate, all-zero) bounding box. -/
def zeroBox : BBox := ⟨zeroV, zeroV, zeroV, zeroV⟩

/-- The min/max/center/size computation of
`CreateBuildingBoundingBox` (lines 6419-6437): initialize both bounds with
the first point, then fold componentwise min/max over all points; an empty
list yields the degenerate zero box (line 6413-6417). -/
def boxOfPoints : List V3 → BBox
  | [] => zeroBox
  | p :: rest =>
      let all := p :: rest
      let mn := all.foldl vmin p
      let mx := all.foldl vmax p
      ⟨mn, mx, vhalfSum mn mx, vsub mx mn⟩

/-- Model of `CreateBuildingBoundingBox` (lines 6384-6446).  Note the structure of
the source: an early `return` of the zero box when the cache has no entry
under the exact id (line 6390), followed by a `Contains` test that is then
always true — the `StartsWith`-merging `else` branch (lines 6402-6411) is
unreachable.  It is reproduced here verbatim. -/
def createBuildingBoundingBox (m : SMap (List V3)) (gmlId : String) : BBox :=
  if m.contains gmlId = false then zeroBox
  else
    let combined :=
      if m.contains gmlId then (m.find? gmlId).getD []
      else combinedCoordsStartingWith m gmlId
    boxOfPoints combined

/-- Model of `IsPointInBoundingBox` (lines 6448-6458): inclusive axis-aligned range
test on all three axes. -/
def isPointInBoundingBox (p : V3) (box : BBox) : Bool :=
  decide (box.minB.x ≤ p.x ∧ p.x ≤ box.maxB.x ∧
          box.minB.y ≤ p.y ∧ p.y ≤ box.maxB.y ∧
          box.minB.z ≤ p.z ∧ p.z ≤ box.maxB.z)

/-- One iteration of the ray-crossing test of `IsPointInPolygon`
(lines 6595-6599); the `&&` short-circuit guarantees the divisor is nonzero
when the division is reached (in `ℚ` the division is total anyway). -/
def edgeCrossesRay (p vi vj : V3) : Bool :=
  (decide (p.y < vi.y) != decide (p.y < vj.y)) &&
    decide (p.x < (vj.x - vi.x) * (p.y - vi.y) / (vj.y - vi.y) + vi.x)

/-- Model of `IsPointInPolygon` (lines 6577-6609): ray-casting parity over the
(X, Y) projection; fewer than 3 vertices always gives `false`. -/
def isPointInPolygon (p : V3) (verts : List V3) : Bool :=
  if verts.length < 3 then false
  else
    let n := verts.length
    let crossings := (List.range n).foldl
      (fun acc i =>
        let vi := verts.getD i zeroV
        let vj := verts.getD ((i + 1) % n) zeroV
        if edgeCrossesRay p vi vj then acc + 1 else acc)
      0
    crossings % 2 == 1

/-- The coordinate gathering of `ValidateBuildingPosition`
(lines 6306-6322): the exact-key entry when present, else the merge of all
entries whose key starts with the id.  (Unlike in
`CreateBuildingBoundingBox`, this merge *is* reachable.) -/
def gatherBuildingCoordinates (m : SMap (List V3)) (gmlId : String) : List V3 :=
  if m.contains gmlId then (m.find? gmlId).getD []
  else combinedCoordsStartingWith m gmlId

/-- Model of `ValidateBuildingPosition` (lines 6296-6382), instrumented with the
call-count spy the specification's test describes: the second component
records whether the point-in-polygon test was evaluated.  Control flow:
fewer than 3 coordinate points → `false` without either test; bounding-box
pre-filter fails → `false` without the polygon test; otherwise the polygon
test decides the result. -/
def validateBuildingPositionSpy (m : SMap (List V3)) (click : V3) (gmlId : String) :
    Bool × Bool :=
  let bounds := createBuildingBoundingBox m gmlId
  let coords := gatherBuildingCoordinates m gmlId
  if coords.length < 3 then (false, false)
  else if isPointInBoundingBox click bounds = false then (false, false)
  else (isPointInPolygon click coords, true)

/-- Model of `ValidateBuildingPosition`'s return value. -/
def validateBuildingPosition (m : SMap (List V3)) (click : V3) (gmlId : String) : Bool :=
  (validateBuildingPositionSpy m click gmlId).1

/-! ### Claim C6 — bounding box construction -/

/-- The merged point set described by the claim: all points cached under
the exact key `id` or under compound keys `id#subid` (stated from the
claim/spec wording, for comparison with the source behaviour). -/
def specMergedPoints (m : SMap (List V3)) (gmlId : String) : List V3 :=
  m.entries.foldl
    (fun acc kv =>
      if kv.1 = gmlId ∨ (gmlId ++ "#").data.isPrefixOf kv.1.data then acc ++ kv.2
      else acc)
    []

/-- The bounding box the claim describes: min/max/center/size over the
merged point set, degenerate zero box when it is empty. -/
def specBoundingBox (m : SMap (List V3)) (gmlId : String) : BBox :=
  boxOfPoints (specMergedPoints m gmlId)

/-- A coordinate cache holding points only under the compound key `A#1`. -/
def subIdCoordCache : SMap (List V3) :=
  [("A#1", [⟨1, 2, 3⟩, ⟨4, 5, 6⟩, ⟨7, 8, 9⟩])]

/-- Counterexample to claim C6 as stated: with points cached only under the
compound key `A#1`, `CreateBuildingBoundingBox("A")` returns the degenerate
zero box instead of the box over the merged points (whose max corner is
`(7,8,9)`): the early `return` at line 6390 fires before the merge branch
can run, so compound sub-id entries are never merged. -/
theorem claim6_merge_counterexample :
    createBuildingBoundingBox subIdCoordCache "A" = zeroBox ∧
    (specBoundingBox subIdCoordCache "A").maxB = ⟨7, 8, 9⟩ ∧
    (createBuildingBoundingBox subIdCoordCache "A").maxB ≠
      (specBoundingBox subIdCoordCache "A").maxB := by
  refine ⟨by decide, by decide, by decide⟩

theorem foldl_min_le_init (l : List ℚ) (i : ℚ) : l.foldl min i ≤ i := by
  induction l generalizing i with
  | nil => exact le_refl i
  | cons a t ih => exact le_trans (ih (min i a)) (min_le_left i a)

theorem foldl_min_le_mem (l : List ℚ) (i : ℚ) (a : ℚ) (ha : a ∈ l) :
    l.foldl min i ≤ a := by
  induction l generalizing i with
  | nil => cases ha
  | cons b t ih =>
    rcases List.mem_cons.mp ha with h | h
    · subst h
      exact le_trans (foldl_min_le_init t (min i a)) (min_le_right i a)
    · exact ih (min i b) h

theorem foldl_min_mem (l : List ℚ) (i : ℚ) :
    l.foldl min i = i ∨ l.foldl min i ∈ l := by
  induction l generalizing i with
  | nil => exact Or.inl rfl
  | cons a t ih =>
    rw [List.foldl_cons]
    rcases ih (min i a) with h | h
    · rcases min_choice i a with hm | hm
      · exact Or.inl (h.trans hm)
      · exact Or.inr (List.mem_cons.mpr (Or.inl (h.trans hm)))
    · exact Or.inr (List.mem_cons_of_mem _ h)

theorem init_le_foldl_max (l : List ℚ) (i : ℚ) : i ≤ l.foldl max i := by
  induction l generalizing i with
  | nil => exact le_refl i
  | cons a t ih => exact le_trans (le_max_left i a) (ih (max i a))

theorem mem_le_foldl_max (l : List ℚ) (i : ℚ) (a : ℚ) (ha : a ∈ l) :
    a ≤ l.foldl max i := by
  induction l generalizing i with
  | nil => cases ha
  | cons b t ih =>
    rcases List.mem_cons.mp ha with h | h
    · subst h
      exact le_trans (le_max_right i a) (init_le_foldl_max t (max i a))
    · exact ih (max i b) h

theorem foldl_max_mem (l : List ℚ) (i : ℚ) :
    l.foldl max i = i ∨ l.foldl max i ∈ l := by
  induction l generalizing i with
  | nil => exact Or.inl rfl
  | cons a t ih =>
    rw [List.foldl_cons]
    rcases ih (max i a) with h | h
    · rcases max_choice i a with hm | hm
      · exact Or.inl (h.trans hm)
      · exact Or.inr (List.mem_cons.mpr (Or.inl (h.trans hm)))
    · exact Or.inr (List.mem_cons_of_mem _ h)

theorem foldl_vmin_proj (l : List V3) (i : V3) :
    (l.foldl vmin i).x = (l.map V3.x).foldl min i.x ∧
    (l.foldl vmin i).y = (l.map V3.y).foldl min i.y ∧
    (l.foldl vmin i).z = (l.map V3.z).foldl min i.z := by
  induction l generalizing i with
  | nil => exact ⟨rfl, rfl, rfl⟩
  | cons a t ih => simpa [vmin] using ih (vmin i a)

theorem foldl_vmax_proj (l : List V3) (i : V3) :
    (l.foldl vmax i).x = (l.map V3.x).foldl max i.x ∧
    (l.foldl vmax i).y = (l.map V3.y).foldl max i.y ∧
    (l.foldl vmax i).z = (l.map V3.z).foldl max i.z := by
  induction l generalizing i with
  | nil => exact ⟨rfl, rfl, rfl⟩
  | cons a t ih => simpa [vmax] using ih (vmax i a)

/-- Claim C6 (amended): `CreateBuildingBoundingBox(id)` computes the
axis-aligned min/max/center/size over the coordinate points cached under
the *exact key* `id` only.  Compound `id#subid` entries are never merged:
when no exact-key entry exists the degenerate all-zero box is returned even
if compound entries exist (the merge branch is unreachable dead code).  For
an exact-key entry `ps`, every point of `ps` lies within the box, each
min/max bound is attained by some point, the center is the midpoint of the
bounds, and the size is their difference. -/
theorem claim6_bounding_box_exact_key_only (m : SMap (List V3)) (gmlId : String) :
    (m.contains gmlId = false → createBuildingBoundingBox m gmlId = zeroBox) ∧
    (∀ ps, m.find? gmlId = some ps →
      createBuildingBoundingBox m gmlId = boxOfPoints ps ∧
      (∀ p ∈ ps,
        (boxOfPoints ps).minB.x ≤ p.x ∧ (boxOfPoints ps).minB.y ≤ p.y ∧
        (boxOfPoints ps).minB.z ≤ p.z ∧ p.x ≤ (boxOfPoints ps).maxB.x ∧
        p.y ≤ (boxOfPoints ps).maxB.y ∧ p.z ≤ (boxOfPoints ps).maxB.z) ∧
      (ps ≠ [] →
        ((∃ q ∈ ps, (boxOfPoints ps).minB.x = q.x) ∧
         (∃ q ∈ ps, (boxOfPoints ps).minB.y = q.y) ∧
         (∃ q ∈ ps, (boxOfPoints ps).minB.z = q.z) ∧
         (∃ q ∈ ps, (boxOfPoints ps).maxB.x = q.x) ∧
         (∃ q ∈ ps, (boxOfPoints ps).maxB.y = q.y) ∧
         (∃ q ∈ ps, (boxOfPoints ps).maxB.z = q.z)) ∧
        (boxOfPoints ps).center = vhalfSum (boxOfPoints ps).minB (boxOfPoints ps).maxB ∧
        (boxOfPoints ps).size = vsub (boxOfPoints ps).maxB (boxOfPoints ps).minB)) := by
  constructor
  · intro h
    unfold createBuildingBoundingBox
    rw [h]
    simp
  · intro ps hf
    have hc : m.contains gmlId = true := by
      simp [SMap.contains, hf]
    constructor
    · unfold createBuildingBoundingBox
      rw [hc]
      simp [hf]
    constructor
    · intro p hp
      match ps, hp with
      | p0 :: rest, hp =>
        have hminp := foldl_vmin_proj (p0 :: rest) p0
        have hmaxp := foldl_vmax_proj (p0 :: rest) p0
        refine ⟨?_, ?_, ?_, ?_, ?_, ?_⟩
        · rw [show (boxOfPoints (p0 :: rest)).minB = (p0 :: rest).foldl vmin p0 from rfl,
              hminp.1]
          exact foldl_min_le_mem _ _ _ (List.mem_map_of_mem V3.x hp)
        · rw [show (boxOfPoints (p0 :: rest)).minB = (p0 :: rest).foldl vmin p0 from rfl,
              hminp.2.1]
          exact foldl_min_le_mem _ _ _ (List.mem_map_of_mem V3.y hp)
        · rw [show (boxOfPoints (p0 :: rest)).minB = (p0 :: rest).foldl vmin p0 from rfl,
              hminp.2.2]
          exact foldl_min_le_mem _ _ _ (List.mem_map_of_mem V3.z hp)
        · rw [show (boxOfPoints (p0 :: rest)).maxB = (p0 :: rest).foldl vmax p0 from rfl,
              hmaxp.1]
          exact mem_le_foldl_max _ _ _ (List.mem_map_of_mem V3.x hp)
        · rw [show (boxOfPoints (p0 :: rest)).maxB = (p0 :: rest).foldl vmax p0 from rfl,
              hmaxp.2.1]
          exact mem_le_foldl_max _ _ _ (List.mem_map_of_mem V3.y hp)
        · rw [show (boxOfPoints (p0 :: rest)).maxB = (p0 :: rest).foldl vmax p0 from rfl,
              hmaxp.2.2]
          exact mem_le_foldl_max _ _ _ (List.mem_map_of_mem V3.z hp)
    · intro hne
      match ps, hne with
      | p0 :: rest, _ =>
        have hminp := foldl_vmin_proj (p0 :: rest) p0
        have hmaxp := foldl_vmax_proj (p0 :: rest) p0
        have hhead : p0 ∈ p0 :: rest := List.mem_cons_self _ _
        have attain : ∀ (proj : V3 → ℚ)
            (hfold : List.foldl min (proj p0) ((p0 :: rest).map proj)
              = List.foldl min (proj p0) ((p0 :: rest).map proj)),
            (List.foldl min (proj p0) ((p0 :: rest).map proj) = proj p0 ∨
              List.foldl min (proj p0) ((p0 :: rest).map proj) ∈ (p0 :: rest).map proj) →
            ∃ q ∈ p0 :: rest, List.foldl min (proj p0) ((p0 :: rest).map proj) = proj q := by
          intro proj _ hmem
          rcases hmem with h | h
          · exact ⟨p0, hhead, h⟩
          · obtain ⟨q, hq, hqe⟩ := List.mem_map.mp h
            exact ⟨q, hq, hqe.symm⟩
        have attainMax : ∀ (proj : V3 → ℚ),
            (List.foldl max (proj p0) ((p0 :: rest).map proj) = proj p0 ∨
              List.foldl max (proj p0) ((p0 :: rest).map proj) ∈ (p0 :: rest).map proj) →
            ∃ q ∈ p0 :: rest, List.foldl max (proj p0) ((p0 :: rest).map proj) = proj q := by
          intro proj hmem
          rcases hmem with h | h
          · exact ⟨p0, hhead, h⟩
          · obtain ⟨q, hq, hqe⟩ := List.mem_map.mp h
            exact ⟨q, hq, hqe.symm⟩
        refine ⟨⟨?_, ?_, ?_, ?_, ?_, ?_⟩, rfl, rfl⟩
        · rw [show (boxOfPoints (p0 :: rest)).minB = (p0 :: rest).foldl vmin p0 from rfl,
              hminp.1]
          exact attain V3.x rfl (foldl_min_mem _ _)
        · rw [show (boxOfPoints (p0 :: rest)).minB = (p0 :: rest).foldl vmin p0 from rfl,
              hminp.2.1]
          exact attain V3.y rfl (foldl_min_mem _ _)
        · rw [show (boxOfPoints (p0 :: rest)).minB = (p0 :: rest).foldl vmin p0 from rfl,
              hminp.2.2]
          exact attain V3.z rfl (foldl_min_mem _ _)
        · rw [show (boxOfPoints (p0 :: rest)).maxB = (p0 :: rest).foldl vmax p0 from rfl,
              hmaxp.1]
          exact attainMax V3.x (foldl_max_mem _ _)
        · rw [show (boxOfPoints (p0 :: rest)).maxB = (p0 :: rest).foldl vmax p0 from rfl,
              hmaxp.2.1]
          exact attainMax V3.y (foldl_max_mem _ _)
        · rw [show (boxOfPoints (p0 :: rest)).maxB = (p0 :: rest).foldl vmax p0 from rfl,
              hmaxp.2.2]
          exact attainMax V3.z (foldl_max_mem _ _)

/-- A coordinate cache with a single exact-key entry `B` (a right triangle
in the `z = 0` plane). -/
def validationCache : SMap (List V3) :=
  [("B", [⟨0, 0, 0⟩, ⟨10, 0, 0⟩, ⟨10, 10, 0⟩])]

/-- Witness for the amended C6: the compound-only cache yields the zero box
for `A`; the exact-key cache for `B` yields the real min/max box and every
point of the entry lies within it. -/
theorem claim6_bounding_box_exact_key_only_witness :
    createBuildingBoundingBox subIdCoordCache "A" = zeroBox ∧
    createBuildingBoundingBox validationCache "B" =
      boxOfPoints [⟨0, 0, 0⟩, ⟨10, 0, 0⟩, ⟨10, 10, 0⟩] ∧
    (boxOfPoints [(⟨0, 0, 0⟩ : V3), ⟨10, 0, 0⟩, ⟨10, 10, 0⟩]).minB.x ≤ 10 ∧
    (10 : ℚ) ≤ (boxOfPoints [(⟨0, 0, 0⟩ : V3), ⟨10, 0, 0⟩, ⟨10, 10, 0⟩]).maxB.x := by
  have h1 := (claim6_bounding_box_exact_key_only subIdCoordCache "A").1 (by decide)
  have h2 := (claim6_bounding_box_exact_key_only validationCache "B").2
    [⟨0, 0, 0⟩, ⟨10, 0, 0⟩, ⟨10, 10, 0⟩] rfl
  have hb := h2.2.1 ⟨10, 0, 0⟩ (by decide)
  exact ⟨h1, h2.1, hb.1, hb.2.2.2.1⟩

/-! ### Claim C7 — bounding-box pre-filter short-circuit -/

/-- Claim C7: whenever the inclusive bounding-box test fails,
`ValidateBuildingPosition` returns `false` without evaluating the
point-in-polygon test; the polygon test is evaluated exactly when the
building has at least 3 gathered coordinate points and the box test passed,
and in that case it decides the result. -/
theorem claim7_box_prefilter_short_circuit (m : SMap (List V3)) (click : V3)
    (gmlId : String) :
    (isPointInBoundingBox click (createBuildingBoundingBox m gmlId) = false →
      validateBuildingPositionSpy m click gmlId = (false, false)) ∧
    ((validateBuildingPositionSpy m click gmlId).2 = true ↔
      (3 ≤ (gatherBuildingCoordinates m gmlId).length ∧
       isPointInBoundingBox click (createBuildingBoundingBox m gmlId) = true)) ∧
    ((validateBuildingPositionSpy m click gmlId).2 = true →
      validateBuildingPosition m click gmlId =
        isPointInPolygon click (gatherBuildingCoordinates m gmlId)) := by
  have hspy : validateBuildingPositionSpy m click gmlId =
      (if (gatherBuildingCoordinates m gmlId).length < 3 then ((false : Bool), (false : Bool))
       else if isPointInBoundingBox click (createBuildingBoundingBox m gmlId) = false then
         (false, false)
       else (isPointInPolygon click (gatherBuildingCoordinates m gmlId), true)) := rfl
  refine ⟨?_, ?_, ?_⟩
  · intro hbox
    rw [hspy]
    by_cases h1 : (gatherBuildingCoordinates m gmlId).length < 3
    · rw [if_pos h1]
    · rw [if_neg h1, if_pos hbox]
  · rw [hspy]
    by_cases h1 : (gatherBuildingCoordinates m gmlId).length < 3
    · rw [if_pos h1]
      constructor
      · intro h
        exact absurd h (by simp)
      · rintro ⟨hl, -⟩
        omega
    · rw [if_neg h1]
      by_cases h2 : isPointInBoundingBox click (createBuildingBoundingBox m gmlId) = false
      · rw [if_pos h2]
        constructor
        · intro h
          exact absurd h (by simp)
        · rintro ⟨-, hbox⟩
          rw [hbox] at h2
          cases h2
      · rw [if_neg h2]
        rcases Bool.eq_false_or_eq_true
            (isPointInBoundingBox click (createBuildingBoundingBox m gmlId)) with hb | hb
        · constructor
          · intro _
            exact ⟨by omega, hb⟩
          · intro _
            rfl
        · exact absurd hb h2
  · intro hsp
    rw [hspy] at hsp
    unfold validateBuildingPosition
    rw [hspy]
    by_cases h1 : (gatherBuildingCoordinates m gmlId).length < 3
    · rw [if_pos h1] at hsp
      exact absurd hsp (by simp)
    · rw [if_neg h1] at hsp ⊢
      by_cases h2 : isPointInBoundingBox click (createBuildingBoundingBox m gmlId) = false
      · rw [if_pos h2] at hsp
        exact absurd hsp (by simp)
      · rw [if_neg h2]

/-- Witness for C7: a click far outside building `B`'s bounding box is
rejected with the polygon test never evaluated. -/
theorem claim7_box_prefilter_short_circuit_witness :
    validateBuildingPositionSpy validationCache ⟨100, 100, 0⟩ "B" = (false, false) :=
  (claim7_box_prefilter_short_circuit validationCache ⟨100, 100, 0⟩ "B").1 (by decide)

/-- Claim C4: ID-conversion round-trip.  For any identifier containing the
separator character `_`, the canonical form is a fixed point of the
`ToCanonical ∘ ToPrimary` round trip
(`ToCanonical (ToPrimary (ToCanonical id)) = ToCanonical id`), and
`ToPrimary (ToCanonical id) = id` whenever `id` contains no `L` (the
substitution letter), where `ToCanonical = ConvertGmlIdToBuildingKey` and
`ToPrimary = ConvertActualGmlIdToModified`. -/
theorem claim4_id_conversion_roundtrip (id : String)
    (hsep : containsChar '_' id = true) :
    convertGmlIdToBuildingKey (convertActualGmlIdToModified
        (convertGmlIdToBuildingKey id)) = convertGmlIdToBuildingKey id ∧
    (containsChar 'L' id = false →
      convertActualGmlIdToModified (convertGmlIdToBuildingKey id) = id) := by
  have hcL : containsChar 'L' (replaceChar '_' 'L' id) = true :=
    containsChar_replaceChar_self '_' 'L' id hsep
  unfold convertGmlIdToBuildingKey convertActualGmlIdToModified
  rw [if_pos hsep, if_pos hcL]
  constructor
  · have hp : containsChar '_' (replaceChar 'L' '_' (replaceChar '_' 'L' id)) = true :=
      containsChar_replaceChar_self 'L' '_' _ hcL
    rw [if_pos hp]
    simp only [replaceChar, List.map_map]
    congr 1
    refine List.map_congr_left fun x _ => ?_
    by_cases h1 : x = '_'
    · simp [h1]
    · by_cases h2 : x = 'L' <;> simp [Function.comp, h1, h2]
  · intro hnoL
    have hmem : ('L' : Char) ∉ id.data := by
      simpa [containsChar] using hnoL
    simp only [replaceChar, List.map_map]
    conv_rhs => rw [show id = ⟨id.data⟩ from rfl, ← List.map_id id.data]
    congr 1
    refine List.map_congr_left fun x hx => ?_
    by_cases h1 : x = '_'
    · simp [Function.comp, h1]
    · have h2 : x ≠ 'L' := fun h => hmem (h ▸ hx)
      simp [Function.comp, h1, h2]

/-- Witness for C4 at the concrete id `DEBW_0010008` (contains `_`, no `L`). -/
theorem claim4_id_conversion_roundtrip_witness :
    convertGmlIdToBuildingKey (convertActualGmlIdToModified
        (convertGmlIdToBuildingKey "DEBW_0010008")) =
      convertGmlIdToBuildingKey "DEBW_0010008" ∧
    convertActualGmlIdToModified (convertGmlIdToBuildingKey "DEBW_0010008") =
      "DEBW_0010008" := by
  have h := claim4_id_conversion_roundtrip "DEBW_0010008" (by decide)
  exact ⟨h.1, h.2 (by decide)⟩

/-! ### Claim C8 — resolve-ladder strict priority

`OnBuildingClicked` (BuildingEnergyDisplay_v2.cpp:5196-5331): if the data
cache contains the clicked id, the attributes form opens for that id;
otherwise three search strategies run in order over the cache entries —
exact scan, separator/letter format-variant scan, then substring (partial)
scan — each returning its first hit.  The resolution result is modelled as
the cache key handed to `ShowBuildingAttributesForm` (`none` when all
strategies fail). -/

/-- The id variations built by strategy 2 (lines 5236-5249): the original,
`L`→`_`, and `_`→`L`. -/
def variationsOf (s : String) : List String :=
  [s, replaceChar 'L' '_' s, replaceChar '_' 'L' s]

/-- Strategy 2's match test: some search variation equals some cache-key
variation (lines 5255-5269). -/
def isVariantMatch (query cacheKey : String) : Bool :=
  (variationsOf query).any fun sv => (variationsOf cacheKey).any fun cv => sv == cv

/-- Strategy 1 (lines 5210-5219): first entry whose key equals the query. -/
def findExactScan (cache : SMap CachedPayload) (q : String) : Option String :=
  (cache.entries.find? fun kv => kv.1 == q).map (·.1)

/-- Strategy 2 (lines 5226-5271): first entry with a format-variant match. -/
def findVariantScan (cache : SMap CachedPayload) (q : String) : Option String :=
  (cache.entries.find? fun kv => isVariantMatch q kv.1).map (·.1)

/-- Model of `FString::Contains` for whole substrings (case-sensitive model). -/
def strContains (hay needle : String) : Bool :=
  decide (needle.data <:+: hay.data)

/-- Strategy 3 (lines 5276-5291): first entry whose key contains the query
or is contained in it. -/
def findFuzzyScan (cache : SMap CachedPayload) (q : String) : Option String :=
  (cache.entries.find? fun kv => strContains kv.1 q || strContains q kv.1).map (·.1)

/-- The resolution ladder of `OnBuildingClicked`: cache hit short-circuits,
else strategies 1-3 in order, first hit wins. -/
def onBuildingClickedResolve (cache : SMap CachedPayload) (q : String) : Option String :=
  if cache.contains q then some q
  else
    match findExactScan cache q with
    | some k => some k
    | none =>
      match findVariantScan cache q with
      | some k => some k
      | none => findFuzzyScan cache q

theorem SMap.contains_eq_false_forall {α : Type} (m : SMap α) (k : String)
    (h : m.contains k = false) : ∀ kv ∈ m.entries, kv.1 ≠ k := by
  induction m with
  | nil => intro kv hkv; cases hkv
  | cons kv0 rest ih =>
    obtain ⟨k0, v0⟩ := kv0
    intro kv hkv
    by_cases h0 : k0 = k
    · exfalso
      simp [SMap.contains, SMap.find?, h0] at h
    · rcases List.mem_cons.mp hkv with he | he
      · rw [he]
        exact h0
      · refine ih ?_ kv he
        simpa [SMap.contains, SMap.find?, h0] using h

/-- Claim C8: the resolve ladder is a strict priority.  When an exact
case-sensitive match for the queried id exists in the data cache, the
resolution returns exactly that id — regardless of any format-variant or
substring matches on other keys; when no exact match exists (in which case
the exact scan necessarily fails too), the format-variant tier decides if
it finds anything; the substring tier is consulted only when both earlier
tiers found nothing. -/
theorem claim8_resolve_ladder_priority (cache : SMap CachedPayload) (q : String) :
    (cache.contains q = true → onBuildingClickedResolve cache q = some q) ∧
    (cache.contains q = false → findExactScan cache q = none) ∧
    (cache.contains q = false → (findVariantScan cache q).isSome = true →
      onBuildingClickedResolve cache q = findVariantScan cache q) ∧
    (cache.contains q = false → findVariantScan cache q = none →
      onBuildingClickedResolve cache q = findFuzzyScan cache q) := by
  have hexact : cache.contains q = false → findExactScan cache q = none := by
    intro h
    have hall := SMap.contains_eq_false_forall cache q h
    unfold findExactScan
    rw [show cache.entries.find? (fun kv => kv.1 == q) = none from ?_]
    · rfl
    · rw [List.find?_eq_none]
      intro kv hkv
      simpa using hall kv hkv
  refine ⟨?_, hexact, ?_, ?_⟩
  · intro h
    unfold onBuildingClickedResolve
    rw [h]
    rfl
  · intro h hv
    unfold onBuildingClickedResolve
    rw [h, hexact h]
    simp only [Bool.false_eq_true, if_false]
    cases hfv : findVariantScan cache q with
    | none => rw [hfv] at hv; cases hv
    | some k => rfl
  · intro h hv
    unfold onBuildingClickedResolve
    rw [h, hexact h, hv]
    rfl

/-- A data cache in which the query `A_1` has an exact match *and* a
format-variant match on another key (`AL1`) *and* a substring match on a
third key (`A_1X`); key `B_2` is a format-variant match for `BL2`. -/
def resolveCache : SMap CachedPayload :=
  [("AL1", .rawJson "d1"), ("A_1", .rawJson "d2"), ("A_1X", .rawJson "d3"),
   ("B_2", .rawJson "d4")]

/-- Witness for C8: the exact match `A_1` wins over the variant and
substring candidates; the variant-only query `BL2` resolves through the
format-variant tier to `B_2`. -/
theorem claim8_resolve_ladder_priority_witness :
    onBuildingClickedResolve resolveCache "A_1" = some "A_1" ∧
    onBuildingClickedResolve resolveCache "BL2" = some "B_2" := by
  have h1 := (claim8_resolve_ladder_priority resolveCache "A_1").1 (by decide)
  have h2 := (claim8_resolve_ladder_priority resolveCache "BL2").2.2.1
    (by decide) (by decide)
  refine ⟨h1, h2.trans (by decide)⟩

/-! ### Claim C10 — single-display invariant

`ShowBuildingInfoWidget` / `HideBuildingInfoWidget`
(BuildingEnergyDisplay_v2.cpp:5701-5784).  The UI sink is modelled as the
trace of emitted display events; `CurrentlyDisplayedBuildingId` is the
currently-displayed marker.  (The static primary-instance guard concerns
duplicate actor instances and is identity on the single modelled
instance.) -/

/-- An event emitted to the screen-overlay UI sink. -/
inductive UIEvent where
  | hideInfo
  | showInfo (buildingId buildingData : String)
deriving DecidableEq

/-- Display-coordinator state: the single-display marker and the emitted
event trace. -/
structure DisplayState where
  currentlyDisplayedBuildingId : String
  events : List UIEvent
deriving DecidableEq

/-- Model of `HideBuildingInfoWidget` (lines 5769-5784): when a building is
displayed, clear its overlay message and empty the marker; otherwise do
nothing. -/
def hideBuildingInfoWidget (s : DisplayState) : DisplayState :=
  if s.currentlyDisplayedBuildingId ≠ "" then
    { currentlyDisplayedBuildingId := "", events := s.events ++ [.hideInfo] }
  else s

/-- Model of `ShowBuildingInfoWidget` (lines 5701-5767): when a *different* building
is currently displayed, hide it first; then record the new id as displayed
and emit its payload. -/
def showBuildingInfoWidget (s : DisplayState) (buildingId buildingData : String) :
    DisplayState :=
  let s1 :=
    if s.currentlyDisplayedBuildingId ≠ "" ∧
        s.currentlyDisplayedBuildingId ≠ buildingId then
      hideBuildingInfoWidget s
    else s
  { currentlyDisplayedBuildingId := buildingId,
    events := s1.events ++ [.showInfo buildingId buildingData] }

/-- Claim C10: at most one building is presented at a time.  Showing a
building different from the currently-displayed one emits exactly a hide
followed by the new payload, the marker afterwards names exactly the newly
shown building, and `Hide` on an empty display is a no-op that leaves the
marker empty. -/
theorem claim10_single_display (s : DisplayState) (id payload : String)
    (hprev : s.currentlyDisplayedBuildingId ≠ "")
    (hdiff : s.currentlyDisplayedBuildingId ≠ id) :
    (showBuildingInfoWidget s id payload).events =
      s.events ++ [.hideInfo, .showInfo id payload] ∧
    (showBuildingInfoWidget s id payload).currentlyDisplayedBuildingId = id ∧
    (∀ t : DisplayState, t.currentlyDisplayedBuildingId = "" →
      hideBuildingInfoWidget t = t) := by
  refine ⟨?_, rfl, ?_⟩
  · unfold showBuildingInfoWidget hideBuildingInfoWidget
    rw [if_pos ⟨hprev, hdiff⟩, if_pos hprev]
    simp
  · intro t ht
    unfold hideBuildingInfoWidget
    rw [if_neg (by simp [ht])]

/-- Witness for C10: with building `A` displayed, showing `B` emits
hide-then-show and leaves `B` displayed; hiding an empty display does
nothing. -/
theorem claim10_single_display_witness :
    (showBuildingInfoWidget ⟨"A", []⟩ "B" "payload").events =
      [.hideInfo, .showInfo "B" "payload"] ∧
    (showBuildingInfoWidget ⟨"A", []⟩ "B" "payload").currentlyDisplayedBuildingId
      = "B" ∧
    hideBuildingInfoWidget ⟨"", []⟩ = ⟨"", []⟩ := by
  have h := claim10_single_display ⟨"A", []⟩ "B" "payload" (by decide) (by decide)
  exact ⟨h.1, h.2.1, h.2.2 ⟨"", []⟩ rfl⟩

end BuildingEnergy
